import Mathlib

/-!
Verification of `gp_sort_media.py` (repsac/gp_sort_media).

The program organizes GoPro media dumps: `_sort_dir` buckets a directory's
entries into subdirectories named after their extensions, `_conform_paths`
renames known extension folders (mp4/lrv/thm) to canonical names
(HIRES/PROXY/THUMBNAILS) and conforms the files inside the lrv/thm folders,
and `conform_files` / `_process_file` conform individual LRV/THM files.

The shallow embedding below works over `Str := List Char` (Python `str`
values, one `Char` per character; all inputs of interest are ASCII).
Filesystem state is modelled per directory as the list of entry names the
directory contains: `os.listdir` is the list itself, `os.path.exists`
inside a directory is list membership, and `os.rename`/`shutil.move`
within one directory replaces the source name by the destination name.
All functions of the source that the claims touch are translated
one-for-one; each carries a comment pointing at the Python it embeds.
-/

deriving instance DecidableEq for Except

namespace GpSortMedia

/-- Python `str` as a list of characters. -/
abbrev Str := List Char

/-- Embed a Lean string literal as a `Str`. -/
def lit (s : String) : Str := s.data

/-- `os.path.splitext` restricted to a file name (no directory separator):
index of the last `'.'`; the extension starts there unless every character
before it is itself a dot (Python's leading-dot rule, so `".bashrc"` has no
extension). Mirrors CPython `genericpath._splitext`. -/
def splitext (p : Str) : Str × Str :=
  match p.reverse.findIdx? (fun c => c == '.') with
  | none => (p, [])
  | some k =>
    let i := p.length - 1 - k
    if (p.take i).all (fun c => c == '.') then (p, [])
    else (p.take i, p.drop i)

/-- Python `str.lower` (ASCII range, which covers every name the program
handles). -/
def lowerStr (n : Str) : Str := n.map Char.toLower

/-- Python `fmt.format(arg)` for the two templates of the program, which
contain exactly one `"\x7b\x7d"` placeholder: replace the first (only)
placeholder by `arg`. -/
def formatOne : Str → Str → Str
  | [], _ => []
  | '\x7b' :: '\x7d' :: rest, arg => arg ++ rest
  | c :: rest, arg => c :: formatOne rest arg

/-- `LRV_PROPERTIES = ('GH{}.MP4', 2)` (source line 12). -/
def LRV_PROPERTIES : Str × Nat := (lit "GH\x7b\x7d.MP4", 2)

/-- `THM_PROPERTIES = ('{}.JPG', 0)` (source line 13). -/
def THM_PROPERTIES : Str × Nat := (lit "\x7b\x7d.JPG", 0)

/-- The Naming Policy applied inside `_rename_file` (line 76):
`fmt.format(basename[index:])` — the template applied to the base name with
its first `indexOffset` characters dropped. Total on every input: an
offset past the end of `baseName` just yields the empty slice. -/
def derive_name (baseName : Str) (rule : Str × Nat) : Str :=
  formatOne rule.1 (baseName.drop rule.2)

/-- The destination name computed by `_rename_file` (lines 74-76):
split the extension off `src`, then apply the naming rule to the stem. -/
def rename_dst (src : Str) (fmt : Str) (index : Nat) : Str :=
  derive_name (splitext src).1 (fmt, index)

/-- `_rename_file(src, fmt, index)` (lines 73-87), within the directory
whose listing is `folder`: compute `dst`; if `dst` exists raise
`FileExistsError` ("{dst} already exists" — the error value is `dst`)
BEFORE touching the filesystem; otherwise rename `src` to `dst` and return
`dst` together with the updated listing. -/
def rename_file (folder : List Str) (src fmt : Str) (index : Nat) :
    Except Str (Str × List Str) :=
  let dst := rename_dst src fmt index
  if dst ∈ folder then .error dst
  else .ok (dst, folder.map fun n => if n = src then dst else n)

/-- `_rename_folder(src, dst)` (lines 124-134), within the parent directory
whose listing is `parent`: if the destination name exists raise `IOError`
("{dst} already exists") before moving; otherwise rename and return the
destination together with the updated parent listing. -/
def rename_folder (parent : List Str) (src dst : Str) :
    Except Str (Str × List Str) :=
  if dst ∈ parent then .error dst
  else .ok (dst, parent.map fun n => if n = src then dst else n)

/-- The file loop of `_conform_lrv_path` / `_conform_thm_path`
(lines 105-106 and 118-119): `os.listdir` takes one snapshot of the folder,
then each listed name is passed to `_rename_file` in turn. An exception
aborts the loop at once, with every rename performed so far kept (no
rollback), so the result is the folder listing at the moment the loop
stopped together with the error, if any. -/
def conform_path_files_go (fmt : Str) (index : Nat) :
    List Str → List Str → List Str × Option Str
  | [], folder => (folder, none)
  | n :: rest, folder =>
    match rename_file folder n fmt index with
    | .error dst => (folder, some dst)
    | .ok (_, folder2) => conform_path_files_go fmt index rest folder2

/-- `_conform_lrv_path` (lines 97-108) after its `_rename_folder` step,
restricted to the renamed folder's contents: every listed file — with no
condition on any other folder — is renamed with `LRV_PROPERTIES`. -/
def conform_lrv_path (folder : List Str) : List Str × Option Str :=
  conform_path_files_go LRV_PROPERTIES.1 LRV_PROPERTIES.2 folder folder

/-- `_conform_thm_path` (lines 111-121) after its `_rename_folder` step:
every listed file is renamed with `THM_PROPERTIES`. -/
def conform_thm_path (folder : List Str) : List Str × Option Str :=
  conform_path_files_go THM_PROPERTIES.1 THM_PROPERTIES.2 folder folder

/-- Following the SPEC's words, for comparison with the code (the code has
no such check): a PROXY file has a HIRES counterpart when some file of the
HIRES listing shares its correlation substring, the base name minus its
first 2 characters. -/
def spec_has_hires_counterpart (hires : List Str) (proxyFile : Str) : Bool :=
  hires.any fun h => (splitext h).1.drop 2 == (splitext proxyFile).1.drop 2

/-- The dispatch table of `_conform_paths` (line 147): the handler
`_conform_<name.lower()>_path` exists in `globals()` exactly for
`mp4`, `lrv` and `thm` (lines 90, 97, 111); the value recorded here is the
canonical folder name that handler renames the folder to (`HIRES`,
`PROXY`, `THUMBNAILS`, lines 8-10). A `none` is the `KeyError` case. -/
def conform_dispatch (name : Str) : Option Str :=
  if lowerStr name = lit "mp4" then some (lit "HIRES")
  else if lowerStr name = lit "lrv" then some (lit "PROXY")
  else if lowerStr name = lit "thm" then some (lit "THUMBNAILS")
  else none

/-- `_conform_paths(path)` (lines 137-150) at the level of the root
listing: one `os.listdir` snapshot; for each name, a `KeyError` (no
handler, `conform_dispatch = none`) is caught and the name skipped;
otherwise the folder is renamed to its canonical name (the matched
handler's file-level loop is modelled separately by `conform_lrv_path` /
`conform_thm_path`). Any other exception propagates and aborts the loop. -/
def conform_paths_go : List Str → List Str → Except Str (List Str)
  | [], listing => .ok listing
  | n :: rest, listing =>
    match conform_dispatch n with
    | none => conform_paths_go rest listing
    | some canon =>
      match rename_folder listing n canon with
      | .error e => .error e
      | .ok (_, listing2) => conform_paths_go rest listing2

/-- `_conform_paths` run on a root listing (snapshot = the listing). -/
def conform_paths (listing : List Str) : Except Str (List Str) :=
  conform_paths_go listing listing

/-- The dispatch of `_process_file` (lines 62-68): the function
`conform_<ext.lower()>_file` exists in `globals()` exactly for `lrv` and
`thm` (lines 49-54); the value is the rule that function passes to
`_rename_file`. A `none` is the `KeyError` case. -/
def file_dispatch (ext : Str) : Option (Str × Nat) :=
  if lowerStr ext = lit "lrv" then some LRV_PROPERTIES
  else if lowerStr ext = lit "thm" then some THM_PROPERTIES
  else none

/-- `_process_file(path)` (lines 57-70) within the file's own directory:
take the extension without its dot; on `KeyError` raise
`IOError(".{ext} file support not available")` — before any filesystem
access; otherwise run the matched `conform_*_file`, i.e. `_rename_file`
with that rule. -/
def process_file (folder : List Str) (name : Str) :
    Except Str (Str × List Str) :=
  let ext := (splitext name).2.drop 1
  match file_dispatch ext with
  | none => .error (('.' :: ext) ++ lit " file support not available")
  | some rule => rename_file folder name rule.1 rule.2

/-- The argument of `conform_files` (line 19): a Python caller passes
either a single `str` or a list of paths. -/
inductive FilesArg where
  | str (s : Str)
  | list (xs : List Str)
deriving DecidableEq

/-- Lines 29-30: `if isinstance(files, str): files = (files,)` — a single
string is wrapped as a one-element tuple; a list is used as given. -/
def filesArgList : FilesArg → List Str
  | .str s => [s]
  | .list xs => xs

/-- The loop of `conform_files` (lines 32-33): process each file in order;
an exception aborts the loop, earlier renames kept. All files are taken to
live in one directory, as in the program's loose-file use. -/
def conform_files_go : List Str → List Str → List Str × Option Str
  | [], folder => (folder, none)
  | n :: rest, folder =>
    match process_file folder n with
    | .error e => (folder, some e)
    | .ok (_, folder2) => conform_files_go rest folder2

/-- `conform_files(files)` (lines 19-33). -/
def conform_files (files : FilesArg) (folder : List Str) :
    List Str × Option Str :=
  conform_files_go (filesArgList files) folder

/-- A directory entry as `os.listdir` returns it to `_sort_dir`: a file,
or a subdirectory carrying the names of the files inside it (one level of
nesting suffices for every claim about the sorter). -/
inductive Entry where
  | f (name : Str)
  | d (name : Str) (files : List Str)
deriving DecidableEq

/-- The name `os.listdir` reports for an entry. -/
def entryName : Entry → Str
  | .f n => n
  | .d n _ => n

/-- The extension-named buckets `_sort_dir` creates under the root,
each with the entries moved into it so far. -/
abbrev Buckets := List (Str × List Entry)

/-- `_mkdir` + `shutil.move` bookkeeping: append `x` to the bucket named
`b`, creating the bucket if it does not exist yet. -/
def addToBucket : Buckets → Str → Entry → Buckets
  | [], b, x => [(b, [x])]
  | (b2, xs) :: rest, b, x =>
    if b2 = b then (b2, xs ++ [x]) :: rest
    else (b2, xs) :: addToBucket rest b x

/-- The entries currently inside the bucket named `b`. -/
def bucketEntries : Buckets → Str → List Entry
  | [], _ => []
  | (b2, xs) :: rest, b => if b2 = b then xs else bucketEntries rest b

/-- All entries sitting in any bucket. -/
def flattenBuckets (bs : Buckets) : List Entry :=
  (bs.map Prod.snd).flatten

/-- The loop of `_sort_dir` (lines 157-166) over one `os.listdir`
snapshot of the root. For each entry: `ext = splitext(name)[1][1:]`.
When `ext` is empty, `os.path.join(path, '')` is the root itself, so
`shutil.move(src, path + sep)` resolves its destination to `src`, which
exists — `shutil.Error` aborts the run (no empty-named bucket is ever
created). Otherwise the `ext` bucket is created if needed and the entry
moved into it; `shutil.move` likewise fails if the bucket already holds
an entry of that name. Subdirectories are entries like any other: they
are moved whole, their contents never visited. -/
def sort_dir_go : List Entry → Buckets → Buckets × Option Str
  | [], bs => (bs, none)
  | e :: rest, bs =>
    let ext := (splitext (entryName e)).2.drop 1
    if ext = [] then (bs, some (entryName e))
    else if (bucketEntries bs ext).any (fun x => entryName x == entryName e) then
      (bs, some (entryName e))
    else sort_dir_go rest (addToBucket bs ext e)

/-- `_sort_dir(path)` (lines 153-166): one listing snapshot, buckets start
from whatever the listing does not already contain — here none. -/
def sort_dir (entries : List Entry) : Buckets × Option Str :=
  sort_dir_go entries []

end GpSortMedia
namespace GpSortMedia

/-- C1, counterexample: with an empty HIRES listing the single PROXY file
`GL000001.LRV` has no HIRES counterpart for its correlation substring, yet
the pass over the PROXY folder succeeds (no error) and simply renames the
file to `GH000001.MP4` — the code never consults HIRES at all, so the
claimed `UnmatchedCorrelationError` cannot arise. -/
theorem C1_counterexample :
    spec_has_hires_counterpart [] (lit "GL000001.LRV") = false
    ∧ conform_lrv_path [lit "GL000001.LRV"] = ([lit "GH000001.MP4"], none) := by
  decide

/-- C1 (amended): the PROXY pass renames every listed file by the LRV rule
without consulting any other folder; it fails only when a derived
destination name already exists in the folder (`FileExistsError` carrying
that destination), aborting the rest of the pass while every file renamed
earlier in the pass remains renamed: if the snapshot prefix `l1` was
processed without error reaching listing `folder1`, and the next file `n`
derives a destination already in `folder1`, the whole pass stops there
with exactly `folder1` as the surviving state. -/
theorem C1_theorem (l1 l2 : List Str) (n : Str) (folder folder1 : List Str)
    (h1 : conform_path_files_go LRV_PROPERTIES.1 LRV_PROPERTIES.2 l1 folder
            = (folder1, none))
    (h2 : rename_dst n LRV_PROPERTIES.1 LRV_PROPERTIES.2 ∈ folder1) :
    conform_path_files_go LRV_PROPERTIES.1 LRV_PROPERTIES.2 (l1 ++ n :: l2) folder
      = (folder1, some (rename_dst n LRV_PROPERTIES.1 LRV_PROPERTIES.2)) := by
  induction l1 generalizing folder with
  | nil =>
    simp only [conform_path_files_go, Prod.mk.injEq] at h1
    rcases h1 with ⟨rfl, -⟩
    simp [conform_path_files_go, rename_file, h2]
  | cons m l1 ih =>
    cases hr : rename_file folder m LRV_PROPERTIES.1 LRV_PROPERTIES.2 with
    | error dst =>
      simp only [conform_path_files_go, hr] at h1
      simp at h1
    | ok p =>
      obtain ⟨d, f2⟩ := p
      simp only [conform_path_files_go, hr] at h1
      simpa [conform_path_files_go, hr] using ih f2 h1

/-- C1, witness: processing `GL000001.LRV` succeeds, then `GL000002.LRV`
derives `GH000002.MP4` which already exists in the folder, so the pass
aborts there with the first rename kept. -/
theorem C1_theorem_witness :
    conform_path_files_go LRV_PROPERTIES.1 LRV_PROPERTIES.2
        ([lit "GL000001.LRV"] ++ lit "GL000002.LRV" :: [])
        [lit "GL000001.LRV", lit "GL000002.LRV", lit "GH000002.MP4"]
      = ([lit "GH000001.MP4", lit "GL000002.LRV", lit "GH000002.MP4"],
         some (rename_dst (lit "GL000002.LRV") LRV_PROPERTIES.1 LRV_PROPERTIES.2)) :=
  C1_theorem [lit "GL000001.LRV"] [] (lit "GL000002.LRV")
    [lit "GL000001.LRV", lit "GL000002.LRV", lit "GH000002.MP4"]
    [lit "GH000001.MP4", lit "GL000002.LRV", lit "GH000002.MP4"]
    (by decide) (by decide)

/-- C2, counterexample: HIRES `GH000002.MP4` and PROXY `GL000002.LRV`
share the correlation substring `000002`, and the pass does rename the
PROXY file to `GH000002.MP4` — whose stem is the hires stem — but its
extension becomes `.MP4`, NOT the proxy file's own original `.LRV`: the
original extension is not retained. -/
theorem C2_counterexample :
    (splitext (lit "GH000002.MP4")).1.drop 2 = (splitext (lit "GL000002.LRV")).1.drop 2
    ∧ conform_lrv_path [lit "GL000002.LRV"] = ([lit "GH000002.MP4"], none)
    ∧ (splitext (rename_dst (lit "GL000002.LRV")
          LRV_PROPERTIES.1 LRV_PROPERTIES.2)).2 = lit ".MP4"
    ∧ (splitext (lit "GL000002.LRV")).2 = lit ".LRV"
    ∧ lit ".MP4" ≠ lit ".LRV" := by
  decide

/-- C2 (amended): for a PROXY file whose stem is `GL` followed by the
correlation substring `s`, conforming renames it to the full name
`GH<s>.MP4`: its stem adopts the hires sibling's stem `GH<s>` and its
extension becomes `.MP4` (the hires extension), replacing the proxy
file's own original extension. -/
theorem C2_theorem (p s e : Str) (hp : splitext p = ('G' :: 'L' :: s, e)) :
    rename_dst p LRV_PROPERTIES.1 LRV_PROPERTIES.2
      = 'G' :: 'H' :: (s ++ ('.' :: 'M' :: 'P' :: '4' :: [])) := by
  simp only [rename_dst, derive_name, LRV_PROPERTIES, hp]
  rfl

/-- C2, witness: `GL000002.LRV` is renamed to `GH000002.MP4`. -/
theorem C2_theorem_witness :
    rename_dst (lit "GL000002.LRV") LRV_PROPERTIES.1 LRV_PROPERTIES.2
      = 'G' :: 'H' :: (lit "000002" ++ ('.' :: 'M' :: 'P' :: '4' :: [])) :=
  C2_theorem (lit "GL000002.LRV") (lit "000002") (lit ".LRV") (by decide)

/-- C3 (confirmed): for both the file rename and the folder rename, a
destination that already exists makes the operation fail with the
collision error carrying that destination — the existence check comes
before any rename, so the error result carries no changed listing and
nothing is overwritten; when the destination does not exist the operation
performs the rename and returns the destination path. -/
theorem C3_theorem (folder : List Str) (src fmt : Str) (idx : Nat)
    (parent : List Str) (srcD dstD : Str) :
    (rename_dst src fmt idx ∈ folder →
        rename_file folder src fmt idx = .error (rename_dst src fmt idx))
    ∧ (rename_dst src fmt idx ∉ folder →
        rename_file folder src fmt idx
          = .ok (rename_dst src fmt idx,
                 folder.map fun m => if m = src then rename_dst src fmt idx else m))
    ∧ (dstD ∈ parent → rename_folder parent srcD dstD = .error dstD)
    ∧ (dstD ∉ parent →
        rename_folder parent srcD dstD
          = .ok (dstD, parent.map fun m => if m = srcD then dstD else m)) := by
  refine ⟨fun h => ?_, fun h => ?_, fun h => ?_, fun h => ?_⟩ <;>
    simp [rename_file, rename_folder, h]

/-- C3, witness: conforming `GL000005.LRV` next to an existing
`GH000005.MP4` collides and fails; renaming folder `LRV` to `PROXY` in a
parent without a `PROXY` entry succeeds and returns `PROXY`. -/
theorem C3_theorem_witness :
    rename_file [lit "GL000005.LRV", lit "GH000005.MP4"] (lit "GL000005.LRV")
        LRV_PROPERTIES.1 LRV_PROPERTIES.2 = .error (lit "GH000005.MP4")
    ∧ rename_folder [lit "LRV", lit "KEEP"] (lit "LRV") (lit "PROXY")
        = .ok (lit "PROXY", [lit "PROXY", lit "KEEP"]) := by
  constructor
  · rw [(C3_theorem [lit "GL000005.LRV", lit "GH000005.MP4"] (lit "GL000005.LRV")
        LRV_PROPERTIES.1 LRV_PROPERTIES.2 [] (lit "A") (lit "B")).1 (by decide)]
    decide
  · rw [(C3_theorem [] (lit "A") (lit "B") 0 [lit "LRV", lit "KEEP"]
        (lit "LRV") (lit "PROXY")).2.2.2 (by decide)]
    decide

/-- C4 (confirmed): the naming policy is exactly
`template.format(baseName[indexOffset:])`; it is a total function on every
string input (an offset at or past the end yields the empty slice and the
degenerate name `template.format('')`), and the two built-in rules are the
proxy rule `('GH\x7b\x7d.MP4', 2)` and the thumbnail rule
`('\x7b\x7d.JPG', 0)`; e.g. `GL012345` derives `GH012345.MP4`. -/
theorem C4_theorem (b t : Str) (off : Nat) :
    derive_name b (t, off) = formatOne t (b.drop off)
    ∧ (b.length ≤ off → derive_name b (t, off) = formatOne t [])
    ∧ LRV_PROPERTIES = (lit "GH\x7b\x7d.MP4", 2)
    ∧ THM_PROPERTIES = (lit "\x7b\x7d.JPG", 0)
    ∧ derive_name (lit "GL012345") LRV_PROPERTIES = lit "GH012345.MP4" := by
  refine ⟨rfl, fun h => ?_, rfl, rfl, by decide⟩
  simp [derive_name, List.drop_eq_nil_of_le h]

/-- C4, witness: offset 5 on the 2-character base name `GL` produces the
empty slice and the degenerate name. -/
theorem C4_theorem_witness :
    derive_name (lit "GL") (lit "GH\x7b\x7d.MP4", 5)
      = formatOne (lit "GH\x7b\x7d.MP4") [] :=
  (C4_theorem (lit "GL") (lit "GH\x7b\x7d.MP4") 5).2.1 (by decide)

/-- Helper: the entries held by a cons of buckets. -/
theorem flattenBuckets_cons (b : Str) (xs : List Entry) (tl : Buckets) :
    flattenBuckets ((b, xs) :: tl) = xs ++ flattenBuckets tl := by
  simp [flattenBuckets]

/-- Helper: adding an entry to a bucket adds exactly that entry to the
entries held by the buckets. -/
theorem mem_flattenBuckets_addToBucket (bs : Buckets) (b : Str) (x e : Entry) :
    e ∈ flattenBuckets (addToBucket bs b x) ↔ e ∈ flattenBuckets bs ∨ e = x := by
  induction bs with
  | nil => simp [addToBucket, flattenBuckets]
  | cons hd tl ih =>
    obtain ⟨b2, xs⟩ := hd
    by_cases hb : b2 = b
    · simp only [addToBucket]
      rw [if_pos hb]
      simp only [flattenBuckets_cons, List.mem_append, List.mem_singleton]
      tauto
    · simp only [addToBucket, if_neg hb, flattenBuckets_cons, List.mem_append]
      rw [ih]
      tauto

/-- Helper: on a run of the sorter loop that ends without error, the
buckets end up holding exactly the initial bucket contents plus the
processed entries — each entry moved whole, none created or lost. -/
theorem mem_sort_dir_go (entries : List Entry) (e : Entry) :
    ∀ bs out, sort_dir_go entries bs = (out, none) →
      (e ∈ flattenBuckets out ↔ e ∈ flattenBuckets bs ∨ e ∈ entries) := by
  induction entries with
  | nil =>
    intro bs out h
    simp only [sort_dir_go, Prod.mk.injEq] at h
    rcases h with ⟨rfl, -⟩
    simp
  | cons x rest ih =>
    intro bs out h
    simp only [sort_dir_go] at h
    split at h
    · simp at h
    · split at h
      · simp at h
      · have h2 := ih _ _ h
        rw [h2, mem_flattenBuckets_addToBucket]
        simp only [List.mem_cons]
        tauto

/-- C5, counterexample: the root holds one subdirectory `sub.dir` whose
single file `a.MP4` sits at depth 2. Sorting moves the subdirectory whole
into a bucket named `dir` (the extension of the subdirectory's own name)
and terminates without error; the depth-2 file `a.MP4` is never
discovered: it stays inside `sub.dir` and no `MP4` bucket is created
anywhere — the walk is not recursive. -/
theorem C5_counterexample :
    sort_dir [.d (lit "sub.dir") [lit "a.MP4"]]
      = ([(lit "dir", [.d (lit "sub.dir") [lit "a.MP4"]])], none)
    ∧ ∀ b ∈ (sort_dir [.d (lit "sub.dir") [lit "a.MP4"]]).1,
        b.1 ≠ lit "MP4" := by
  decide

/-- C5 (amended): the sorter walks only the top level of `rootPath`: each
immediate child — file or subdirectory — is bucketed by the extension of
its own name, and the contents of subdirectories are never visited: on a
run without error the buckets hold exactly the original immediate
children, every subdirectory moved whole with its files untouched. -/
theorem C5_theorem (entries : List Entry) (bs : Buckets) (e : Entry)
    (h : sort_dir entries = (bs, none)) :
    e ∈ flattenBuckets bs ↔ e ∈ entries := by
  have h2 := mem_sort_dir_go entries e [] bs h
  simpa [flattenBuckets] using h2

/-- C5, witness: sorting a root with file `a.MP4` and subdirectory
`s.dir` containing `b.MP4`; the subdirectory survives in the `dir`
bucket with its file list untouched. -/
theorem C5_theorem_witness :
    Entry.d (lit "s.dir") [lit "b.MP4"]
        ∈ flattenBuckets [(lit "MP4", [Entry.f (lit "a.MP4")]),
                          (lit "dir", [Entry.d (lit "s.dir") [lit "b.MP4"]])]
      ↔ Entry.d (lit "s.dir") [lit "b.MP4"]
          ∈ [Entry.f (lit "a.MP4"), Entry.d (lit "s.dir") [lit "b.MP4"]] :=
  C5_theorem _ _ _ (by decide)

/-- C6, counterexample: the file `GH000001.MP4` is bucketed into a
directory named `MP4` — the extension as written, which differs from the
lowercased `mp4` the claim names; and a file with no extension
(`README`) is not moved into an empty-string bucket: the run aborts with
an error (the move resolves to the file's own path, which exists) and no
bucket at all is created. -/
theorem C6_counterexample :
    sort_dir [.f (lit "GH000001.MP4")]
      = ([(lit "MP4", [.f (lit "GH000001.MP4")])], none)
    ∧ lit "MP4" ≠ lit "mp4"
    ∧ sort_dir [.f (lit "README")] = ([], some (lit "README")) := by
  decide

/-- C6 (amended): the bucket an entry is moved into is named by the
entry's extension with no leading dot and with its case preserved (no
lowercasing); an entry whose extension is empty — no dot in its name —
makes the sorter fail at that entry instead of using an empty-string
bucket. -/
theorem C6_theorem (e : Entry) (rest : List Entry) :
    ((splitext (entryName e)).2.drop 1 = [] →
        sort_dir (e :: rest) = ([], some (entryName e)))
    ∧ ((splitext (entryName e)).2.drop 1 ≠ [] →
        sort_dir [e] = ([((splitext (entryName e)).2.drop 1, [e])], none)) := by
  constructor
  · intro h
    simp [sort_dir, sort_dir_go, h]
  · intro h
    rw [List.drop_one] at h
    simp [sort_dir, sort_dir_go, h, bucketEntries, addToBucket, List.drop_one]

/-- C6, witness: the extensionless `NOTES` aborts the run; `GOPR0001.JPG`
lands in the case-preserved bucket `JPG`. -/
theorem C6_theorem_witness :
    sort_dir [Entry.f (lit "NOTES")] = ([], some (lit "NOTES"))
    ∧ sort_dir [Entry.f (lit "GOPR0001.JPG")]
        = ([(lit "JPG", [Entry.f (lit "GOPR0001.JPG")])], none) := by
  constructor
  · exact (C6_theorem (Entry.f (lit "NOTES")) []).1 (by decide)
  · rw [(C6_theorem (Entry.f (lit "GOPR0001.JPG")) []).2 (by decide)]
    decide

/-- C7 (confirmed): the folder conformer renames an immediate
subdirectory to `HIRES` when its lowercased name is `mp4`, to `PROXY`
when `lrv`, to `THUMBNAILS` when `thm` (performing the rename when the
canonical name is not already taken), and every other name has no
handler: the subdirectory is skipped without error and the listing passes
through unchanged. -/
theorem C7_theorem (n c : Str) (rest listing : List Str) :
    (lowerStr n = lit "mp4" → conform_dispatch n = some (lit "HIRES"))
    ∧ (lowerStr n = lit "lrv" → conform_dispatch n = some (lit "PROXY"))
    ∧ (lowerStr n = lit "thm" → conform_dispatch n = some (lit "THUMBNAILS"))
    ∧ (lowerStr n ≠ lit "mp4" → lowerStr n ≠ lit "lrv" → lowerStr n ≠ lit "thm" →
        conform_dispatch n = none)
    ∧ (conform_dispatch n = none →
        conform_paths_go (n :: rest) listing = conform_paths_go rest listing)
    ∧ (conform_dispatch n = some c → c ∉ listing →
        conform_paths_go (n :: rest) listing
          = conform_paths_go rest (listing.map fun m => if m = n then c else m)) := by
  refine ⟨fun h => ?_, fun h => ?_, fun h => ?_, fun h1 h2 h3 => ?_,
    fun h => ?_, fun h hc => ?_⟩
  · simp only [conform_dispatch, h]
    decide
  · simp only [conform_dispatch, h]
    decide
  · simp only [conform_dispatch, h]
    decide
  · simp only [conform_dispatch, if_neg h1, if_neg h2, if_neg h3]
  · simp only [conform_paths_go, h]
  · simp only [conform_paths_go, h, rename_folder, if_neg hc]

/-- C7, witness: `MP4` dispatches to `HIRES`; the unrecognized `JPG` is
skipped with the listing unchanged; `THM` is renamed to `THUMBNAILS` in
the listing. -/
theorem C7_theorem_witness :
    conform_dispatch (lit "MP4") = some (lit "HIRES")
    ∧ conform_paths_go [lit "JPG"] [lit "JPG", lit "MP4"]
        = conform_paths_go [] [lit "JPG", lit "MP4"]
    ∧ conform_paths_go [lit "THM"] [lit "THM"]
        = conform_paths_go []
            ([lit "THM"].map fun m => if m = lit "THM" then lit "THUMBNAILS" else m) :=
  ⟨(C7_theorem (lit "MP4") (lit "X") [] []).1 (by decide),
   (C7_theorem (lit "JPG") (lit "X") [] [lit "JPG", lit "MP4"]).2.2.2.2.1 (by decide),
   (C7_theorem (lit "THM") (lit "THUMBNAILS") [] [lit "THM"]).2.2.2.2.2
     (by decide) (by decide)⟩

/-- C8 (confirmed): when a file's extension has no
`conform_<ext>_file` handler, the single-file conform raises
`IOError(".<ext> file support not available")` — the error names the
unsupported extension — and, the dispatch failing before any filesystem
call, the error result carries no changed listing: nothing is mutated. -/
theorem C8_theorem (folder : List Str) (name : Str)
    (h : file_dispatch ((splitext name).2.drop 1) = none) :
    process_file folder name
      = .error (('.' :: (splitext name).2.drop 1)
                  ++ lit " file support not available") := by
  simp only [process_file, h]

/-- C8, witness: conforming `CLIP.MOV` fails with the IOError naming
`.MOV`, the folder untouched. -/
theorem C8_theorem_witness :
    process_file [] (lit "CLIP.MOV")
      = .error (lit ".MOV file support not available") := by
  rw [C8_theorem [] (lit "CLIP.MOV") (by decide)]
  decide

/-- C9 (confirmed): the single-file conform supports exactly the
extensions whose lowercasing is `lrv` or `thm`; in particular an
individual `.MP4` file fails with the IOError even though a FOLDER named
`MP4` is supported by the folder conformer (dispatched to `HIRES`). -/
theorem C9_theorem (ext : Str) :
    ((file_dispatch ext).isSome
        ↔ (lowerStr ext = lit "lrv" ∨ lowerStr ext = lit "thm"))
    ∧ process_file [lit "GH000001.MP4"] (lit "GH000001.MP4")
        = .error (lit ".MP4 file support not available")
    ∧ conform_dispatch (lit "MP4") = some (lit "HIRES") := by
  refine ⟨?_, by decide, by decide⟩
  by_cases h1 : lowerStr ext = lit "lrv"
  · simp [file_dispatch, h1]
  · by_cases h2 : lowerStr ext = lit "thm"
    · simp [file_dispatch, h1, h2]
      decide
    · simp [file_dispatch, h1, h2]

/-- C10 (confirmed): `conform_files` takes either a list of paths or a
single string path; a single string is wrapped as the one-element
sequence holding the whole string — not iterated character by character —
so exactly that one file is conformed, the same as passing the
one-element list. -/
theorem C10_theorem (s : Str) (xs folder : List Str) :
    conform_files (.str s) folder = conform_files (.list [s]) folder
    ∧ filesArgList (.str s) = [s]
    ∧ (filesArgList (.str s)).length = 1
    ∧ conform_files (.str s) folder
        = (match process_file folder s with
           | .error e => (folder, some e)
           | .ok (_, folder2) => (folder2, none))
    ∧ conform_files (.list xs) folder = conform_files_go xs folder := by
  refine ⟨rfl, rfl, rfl, ?_, rfl⟩
  cases h : process_file folder s with
  | error e => simp [conform_files, filesArgList, conform_files_go, h]
  | ok p =>
    obtain ⟨d, f2⟩ := p
    simp [conform_files, filesArgList, conform_files_go, h]

end GpSortMedia
